import Mathlib

/-!
# Resilience execution core of Stacksusu: shallow embedding

This file embeds, in Lean 4, the resilience primitives of the repository —
the retry executors (`src/frontend/src/utils/retry.ts` and
`src/frontend/src/utils/delay.ts`), the backoff calculator, the pooled retry
runner, the circuit breaker, and the bounded-concurrency mapper — and proves
or refutes the specification's claims about them.

Conventions of the embedding:
* An *operation* is modelled as a function `Nat → Except E A` from the
  invocation count so far to that invocation's outcome, so that "fails on
  every invocation", "fails twice then succeeds", etc. are expressible.
* A JS `throw` of value `t` is an `Except.error t`.  Both retry loops end in
  an unreachable `throw lastError` where `lastError` may still be
  `undefined`; the thrown value therefore has type `Option E`
  (`none` = `undefined`).
* `Math.random()` is nondeterministic, so it becomes an explicit parameter
  `rand : ℚ` with the hypothesis `0 ≤ rand < 1` where needed; JS number
  arithmetic is modelled over `ℚ`, and `Math.round` as `⌊x + 1/2⌋`
  (round half toward +∞, as in JS).
* `Date.now()` becomes an explicit `now : Int` parameter, one instant per
  `execute` call.
* The `await sleep(delay)` suspensions have no effect on the value-level
  outcome of a retry call and are elided.
* Each retry function returns, besides its `Except` outcome, the number of
  operation invocations made and the list of attempt numbers passed to
  `onRetry`, so that the spec's invocation-count properties are statements
  about the function's value.
-/

namespace Stacksusu

/-! ## `retry` from `src/frontend/src/utils/delay.ts` (lines 72–110)

The source loop is `for (let attempt = 1; attempt <= maxAttempts; attempt++)`.
`fuel` is a structural bound on the remaining loop iterations (the caller
passes `maxAttempts + 1`, enough for the whole loop plus the final
`throw lastError`); the loop test `attempt ≤ maxAttempts` is kept verbatim. -/

namespace DelayTs

/-- The body of the `for` loop of `retry` in `delay.ts`: run `op`; on success
return; on failure, if `attempt < maxAttempts && isRetriable(error)` record the
`onRetry(error, attempt)` call and continue, else rethrow; after the loop,
`throw lastError`.  Returns (outcome, invocation count, onRetry attempt log). -/
def retryAux (op : Nat → Except E A) (isRetriable : E → Bool) (maxAttempts : Nat) :
    Nat → Nat → Nat → List Nat → Option E → Except (Option E) A × Nat × List Nat
  | 0, _, invocs, log, last => (.error last, invocs, log)
  | fuel + 1, attempt, invocs, log, last =>
    if attempt ≤ maxAttempts then
      match op invocs with
      | .ok v => (.ok v, invocs + 1, log)
      | .error e =>
        if attempt < maxAttempts ∧ isRetriable e = true then
          retryAux op isRetriable maxAttempts fuel (attempt + 1) (invocs + 1)
            (log ++ [attempt]) (some e)
        else (.error (some e), invocs + 1, log)
    else (.error last, invocs, log)

/-- `retry(fn, {maxAttempts, isRetriable, onRetry})` from `delay.ts`:
the loop starts at `attempt = 1` with no invocation made yet. -/
def retry (op : Nat → Except E A) (isRetriable : E → Bool) (maxAttempts : Nat) :
    Except (Option E) A × Nat × List Nat :=
  retryAux op isRetriable maxAttempts (maxAttempts + 1) 1 0 [] none

end DelayTs

/-! ## `retry` from `src/frontend/src/utils/retry.ts` (lines 90–119)

Here the loop is `for (let attempt = 0; attempt <= config.maxRetries; attempt++)`
— zero-based, `maxRetries + 1` total invocations — and `onRetry` is called
with `attempt + 1`. -/

namespace RetryTs

/-- The loop body of `retry` in `retry.ts`: run `fn`; on failure, if
`attempt === maxRetries || !isRetryable(error)` rethrow, else record
`onRetry(error, attempt + 1)` and continue; after the loop, `throw lastError`. -/
def retryAux (op : Nat → Except E A) (isRetryable : E → Bool) (maxRetries : Nat) :
    Nat → Nat → Nat → List Nat → Option E → Except (Option E) A × Nat × List Nat
  | 0, _, invocs, log, last => (.error last, invocs, log)
  | fuel + 1, attempt, invocs, log, last =>
    if attempt ≤ maxRetries then
      match op invocs with
      | .ok v => (.ok v, invocs + 1, log)
      | .error e =>
        if attempt = maxRetries ∨ isRetryable e = false then
          (.error (some e), invocs + 1, log)
        else
          retryAux op isRetryable maxRetries fuel (attempt + 1) (invocs + 1)
            (log ++ [attempt + 1]) (some e)
    else (.error last, invocs, log)

/-- `retry(fn, options)` from `retry.ts`: loop from `attempt = 0`. -/
def retry (op : Nat → Except E A) (isRetryable : E → Bool) (maxRetries : Nat) :
    Except (Option E) A × Nat × List Nat :=
  retryAux op isRetryable maxRetries (maxRetries + 1) 0 0 [] none

end RetryTs

namespace RetryTs

/-! ## `calculateDelay` from `retry.ts` (lines 48–60)

JS number arithmetic is modelled over `ℚ`; `Math.random()` becomes the
explicit parameter `rand` (with `0 ≤ rand < 1` where a claim needs it). -/

/-- The relevant fields of `Required<RetryOptions>` for `calculateDelay`. -/
structure RetryOptions where
  initialDelay : ℚ
  maxDelay : ℚ
  backoffMultiplier : ℚ
  jitter : ℚ
deriving DecidableEq, Repr

/-- JS `Math.round`: round half toward +∞. -/
def jsRound (x : ℚ) : ℤ := ⌊x + 1 / 2⌋

/-- `calculateDelay(attempt, config)` from `retry.ts`:
`exponentialDelay = initialDelay * backoffMultiplier ^ attempt`;
`cappedDelay = min(exponentialDelay, maxDelay)`;
`jitter = (random() - 0.5) * 2 * (cappedDelay * config.jitter)`;
result `max(0, round(cappedDelay + jitter))`. -/
def calculateDelay (attempt : Nat) (config : RetryOptions) (rand : ℚ) : ℤ :=
  let exponentialDelay := config.initialDelay * config.backoffMultiplier ^ attempt
  let cappedDelay := min exponentialDelay config.maxDelay
  let jitterRange := cappedDelay * config.jitter
  let jitterAmt := (rand - 1 / 2) * 2 * jitterRange
  max 0 (jsRound (cappedDelay + jitterAmt))

/-! ## `retryPool` from `retry.ts` (lines 210–236) -/

/-- `PooledResult<T>` from `retry.ts`.  `error` holds the caught thrown value
(itself an `Option E`, since a JS `throw` value may be `undefined`). -/
structure PooledResult (E A : Type) where
  result : Option A
  error : Option (Option E)
  attempts : Nat
  success : Bool
deriving DecidableEq, Repr

/-- The per-task body of `retryPool`: start from
`{attempts: 0, success: false}`; `try { result = await retry(task, options);
success = true } catch (error) { result.error = error }`.  The source never
writes to `attempts` after its initialisation. -/
def runPooledTask (task : Nat → Except E A) (isRetryable : E → Bool)
    (maxRetries : Nat) : PooledResult E A :=
  match retry task isRetryable maxRetries with
  | (.ok v, _, _) =>
    { result := some v, error := none, attempts := 0, success := true }
  | (.error t, _, _) =>
    { result := none, error := some t, attempts := 0, success := false }

/-- `retryPool(tasks, options)`: every task is run (under `Promise.all`) and
its `PooledResult` is written to `results[index]`, so the returned array is
index-aligned with the input and each slot depends only on its own task. -/
def retryPool (tasks : List (Nat → Except E A)) (isRetryable : E → Bool)
    (maxRetries : Nat) : List (PooledResult E A) :=
  tasks.map fun task => runPooledTask task isRetryable maxRetries

/-! ## `createCircuitBreaker` from `retry.ts` (lines 270–346) -/

/-- `CircuitBreakerState`: the source's `'closed' | 'open' | 'half-open'`
(the middle constructor is named `opened` because `open` is a Lean keyword). -/
inductive CBState where
  | closed
  | opened
  | halfOpen
deriving DecidableEq, Repr

/-- `Required<CircuitBreakerOptions>`. -/
structure CBConfig where
  failureThreshold : Nat
  halfOpenTime : Int
  successThreshold : Nat
deriving DecidableEq, Repr

/-- `CircuitBreakerStateInternal`: the mutable `stateData` record.
Timestamps are `Int` (milliseconds from `Date.now()`). -/
structure CBData where
  state : CBState
  failures : Nat
  lastFailure : Int
  successes : Nat
deriving DecidableEq, Repr

/-- The initial `stateData` of a freshly created breaker. -/
def initCB : CBData :=
  { state := .closed, failures := 0, lastFailure := 0, successes := 0 }

/-- `reset()`: back to closed with all counters cleared. -/
def resetCB : CBData :=
  { state := .closed, failures := 0, lastFailure := 0, successes := 0 }

/-- `getState()`: if the state is open and `now - lastFailure ≥ halfOpenTime`,
set the state to half-open (no other field changes); return the (possibly
updated) state together with the updated `stateData`. -/
def getState (config : CBConfig) (now : Int) (s : CBData) : CBState × CBData :=
  if s.state = .opened ∧ config.halfOpenTime ≤ now - s.lastFailure then
    (.halfOpen, { s with state := .halfOpen })
  else (s.state, s)

/-- `onSuccess()`: only in half-open, increment `successes` and `reset()` once
`successes ≥ successThreshold`; in any other state do nothing. -/
def onSuccess (config : CBConfig) (s : CBData) : CBData :=
  if s.state = .halfOpen then
    let s1 := { s with successes := s.successes + 1 }
    if config.successThreshold ≤ s1.successes then resetCB else s1
  else s

/-- `onFailure()`: increment `failures` and stamp `lastFailure = now`; then
if closed and `failures ≥ failureThreshold`, open; then if half-open, open. -/
def onFailure (config : CBConfig) (now : Int) (s : CBData) : CBData :=
  let s1 := { s with failures := s.failures + 1, lastFailure := now }
  let s2 :=
    if s1.state = .closed ∧ config.failureThreshold ≤ s1.failures then
      { s1 with state := .opened }
    else s1
  if s2.state = .halfOpen then { s2 with state := .opened } else s2

/-- The error channel of `execute`: the breaker's own
`Error('Circuit breaker is open')` versus the wrapped operation's error. -/
inductive CBError (E : Type) where
  | circuitOpen
  | opFailed (e : E)
deriving DecidableEq, Repr

/-- `execute(fn)`: read `getState()`; if open, throw `CircuitOpenError`
without invoking `fn`; otherwise invoke `fn`, feed the outcome to
`onSuccess`/`onFailure`, and return/rethrow.  `op : Except E A` is this
call's outcome of `fn`; the `Bool` reports whether `fn` was invoked. -/
def execute (config : CBConfig) (now : Int) (op : Except E A) (s : CBData) :
    Except (CBError E) A × CBData × Bool :=
  let gs := getState config now s
  if gs.1 = .opened then (.error .circuitOpen, gs.2, false)
  else
    match op with
    | .ok v => (.ok v, onSuccess config gs.2, true)
    | .error e => (.error (.opFailed e), onFailure config now gs.2, true)

/-- Fold a sequence of operation outcomes through `execute`, keeping only the
evolving `stateData` (each call happens at the same instant `now`). -/
def runSeq (config : CBConfig) (now : Int) (ops : List (Except E A))
    (s : CBData) : CBData :=
  ops.foldl (fun st op => (execute config now op st).2.1) s

/-- The number of failing outcomes in a sequence. -/
def countErrors (ops : List (Except E A)) : Nat :=
  (ops.filter fun op => ¬ op.isOk).length

end RetryTs

/-! ## `mapWithConcurrency` from `delay.ts` (lines 115–157) -/

namespace DelayTs

/-- One executor chain of `mapWithConcurrency`: `executeNext()` repeatedly
takes `queue[currentIndex]` (incrementing the shared `currentIndex` before any
suspension), computes `fn(item, index)`, stores it at `results[index]`, and
recurses until the queue is exhausted.  Accumulates the results array and the
number of `fn` invocations. -/
def executeNext (f : α → Nat → β) (queue : List (Nat × α)) :
    Nat → List (Option β) → Nat → List (Option β) × Nat
  | currentIndex, results, invocs =>
    match h : queue.get? currentIndex with
    | none => (results, invocs)
    | some it =>
      executeNext f queue (currentIndex + 1)
        (results.set it.1 (some (f it.2 it.1))) (invocs + 1)
termination_by currentIndex => queue.length - currentIndex
decreasing_by
  have : currentIndex < queue.length := List.get?_eq_some.mp h |>.1
  omega

/-- `mapWithConcurrency(items, concurrency, fn)` — value-level embedding.
`results` starts as an all-unset array of `items.length` slots and `queue`
pairs each item with its index.  The source starts
`min(concurrency, queue.length)` initial executor chains (none when
`concurrency < 1`: `Array.from({length: m})` of a non-positive `m` is empty)
that share one `currentIndex`; since every processed slot is written exactly
once with `fn(item, index)`, the filled slots and the invocation count do not
depend on the interleaving, so the embedding runs the executor chain to
completion when at least one executor starts.  The source performs no
validation of `concurrency` and never throws on its own; the function's type
is accordingly error-free.  Returns (results array, number of invocations). -/
def mapWithConcurrency (items : List α) (concurrency : Int) (f : α → Nat → β) :
    List (Option β) × Nat :=
  let queue := items.enum
  let results : List (Option β) := items.map fun _ => none
  if 1 ≤ min concurrency (items.length : Int) then
    executeNext f queue 0 results 0
  else (results, 0)

end DelayTs

end Stacksusu

/-! # Theorems -/

namespace Stacksusu

/-! ## Retry executor lemmas -/

/-- When every invocation fails with a retryable error, the `delay.ts` loop
runs through its remaining `k` iterations (`attempt + k = maxAttempts`),
logging `onRetry` at attempts `attempt, …, attempt + k - 1` and finally
rethrowing the error of the last invocation. -/
theorem delay_retryAux_allFail {E A : Type} (op : Nat → Except E A) (isR : E → Bool)
    (maxAttempts : Nat) (hfail : ∀ n, ∃ e, op n = .error e ∧ isR e = true) :
    ∀ (k fuel attempt invocs : Nat) (log : List Nat) (last : Option E),
      attempt + k = maxAttempts → 1 ≤ attempt → k + 1 ≤ fuel →
      ∃ e, op (invocs + k) = .error e ∧
        DelayTs.retryAux op isR maxAttempts fuel attempt invocs log last =
          (.error (some e), invocs + k + 1, log ++ List.range' attempt k) := by
  intro k
  induction k with
  | zero =>
    intro fuel attempt invocs log last hak h1 hfuel
    obtain ⟨f, rfl⟩ : ∃ f, fuel = f + 1 := ⟨fuel - 1, by omega⟩
    obtain ⟨e, he, hre⟩ := hfail invocs
    have h2 : attempt ≤ maxAttempts := by omega
    have h3 : ¬ (attempt < maxAttempts ∧ isR e = true) := by
      rintro ⟨h, -⟩; omega
    refine ⟨e, by simpa using he, ?_⟩
    simp [DelayTs.retryAux, h2, he, h3]
  | succ k ih =>
    intro fuel attempt invocs log last hak h1 hfuel
    obtain ⟨f, rfl⟩ : ∃ f, fuel = f + 1 := ⟨fuel - 1, by omega⟩
    obtain ⟨e, he, hre⟩ := hfail invocs
    have h2 : attempt ≤ maxAttempts := by omega
    have h3 : attempt < maxAttempts := by omega
    obtain ⟨e', he', hres⟩ :=
      ih f (attempt + 1) (invocs + 1) (log ++ [attempt]) (some e)
        (by omega) (by omega) (by omega)
    refine ⟨e', ?_, ?_⟩
    · have hn : invocs + 1 + k = invocs + (k + 1) := by omega
      rwa [hn] at he'
    · simp only [DelayTs.retryAux]
      rw [if_pos h2, he]
      simp only [h3, hre, and_self, if_true]
      rw [hres]
      have hn : invocs + 1 + k + 1 = invocs + (k + 1) + 1 := by omega
      rw [hn, List.append_assoc, List.singleton_append, List.range'_succ]

/-- `delay.ts` retry never makes more invocations than the remaining loop
iterations allow: the invocation count is bounded by
`invocs + (maxAttempts + 1 - attempt)`. -/
theorem delay_retryAux_invocs_le {E A : Type} (op : Nat → Except E A) (isR : E → Bool)
    (maxAttempts : Nat) :
    ∀ (fuel attempt invocs : Nat) (log : List Nat) (last : Option E),
      (DelayTs.retryAux op isR maxAttempts fuel attempt invocs log last).2.1 ≤
        invocs + (maxAttempts + 1 - attempt) := by
  intro fuel
  induction fuel with
  | zero => intro attempt invocs log last; simp [DelayTs.retryAux]
  | succ f ih =>
    intro attempt invocs log last
    simp only [DelayTs.retryAux]
    by_cases h : attempt ≤ maxAttempts
    · rw [if_pos h]
      cases hop : op invocs with
      | ok v => simp; omega
      | error e =>
        by_cases hc : attempt < maxAttempts ∧ isR e = true
        · simp only [hc, and_self, if_true]
          have := ih (attempt + 1) (invocs + 1) (log ++ [attempt]) (some e)
          omega
        · simp only [hc, if_false]; simp; omega
    · rw [if_neg h]; simp

/-- The analogue of `delay_retryAux_allFail` for the zero-based loop of
`retry.ts`: remaining `k + 1` invocations (`attempt + k = maxRetries`),
`onRetry` logged with `attempt + 1, …, attempt + k`. -/
theorem retryTs_retryAux_allFail {E A : Type} (op : Nat → Except E A) (isR : E → Bool)
    (maxRetries : Nat) (hfail : ∀ n, ∃ e, op n = .error e ∧ isR e = true) :
    ∀ (k fuel attempt invocs : Nat) (log : List Nat) (last : Option E),
      attempt + k = maxRetries → k + 1 ≤ fuel →
      ∃ e, op (invocs + k) = .error e ∧
        RetryTs.retryAux op isR maxRetries fuel attempt invocs log last =
          (.error (some e), invocs + k + 1, log ++ List.range' (attempt + 1) k) := by
  intro k
  induction k with
  | zero =>
    intro fuel attempt invocs log last hak hfuel
    obtain ⟨f, rfl⟩ : ∃ f, fuel = f + 1 := ⟨fuel - 1, by omega⟩
    obtain ⟨e, he, hre⟩ := hfail invocs
    have h2 : attempt ≤ maxRetries := by omega
    have h3 : attempt = maxRetries ∨ isR e = false := Or.inl (by omega)
    refine ⟨e, by simpa using he, ?_⟩
    simp [RetryTs.retryAux, h2, he, h3]
  | succ k ih =>
    intro fuel attempt invocs log last hak hfuel
    obtain ⟨f, rfl⟩ : ∃ f, fuel = f + 1 := ⟨fuel - 1, by omega⟩
    obtain ⟨e, he, hre⟩ := hfail invocs
    have h2 : attempt ≤ maxRetries := by omega
    have h3 : ¬ (attempt = maxRetries ∨ isR e = false) := by
      rintro (h | h)
      · omega
      · rw [hre] at h; exact Bool.noConfusion h
    obtain ⟨e', he', hres⟩ :=
      ih f (attempt + 1) (invocs + 1) (log ++ [attempt + 1]) (some e)
        (by omega) (by omega)
    refine ⟨e', ?_, ?_⟩
    · have hn : invocs + 1 + k = invocs + (k + 1) := by omega
      rwa [hn] at he'
    · simp only [RetryTs.retryAux]
      rw [if_pos h2, he]
      simp only [h3, if_false]
      rw [hres]
      have hn : invocs + 1 + k + 1 = invocs + (k + 1) + 1 := by omega
      rw [hn, List.append_assoc, List.singleton_append, List.range'_succ]

/-- `retry.ts` retry makes at most `invocs + (maxRetries + 1 - attempt)`
invocations from loop position `attempt`. -/
theorem retryTs_retryAux_invocs_le {E A : Type} (op : Nat → Except E A) (isR : E → Bool)
    (maxRetries : Nat) :
    ∀ (fuel attempt invocs : Nat) (log : List Nat) (last : Option E),
      (RetryTs.retryAux op isR maxRetries fuel attempt invocs log last).2.1 ≤
        invocs + (maxRetries + 1 - attempt) := by
  intro fuel
  induction fuel with
  | zero => intro attempt invocs log last; simp [RetryTs.retryAux]
  | succ f ih =>
    intro attempt invocs log last
    simp only [RetryTs.retryAux]
    by_cases h : attempt ≤ maxRetries
    · rw [if_pos h]
      cases hop : op invocs with
      | ok v => simp; omega
      | error e =>
        by_cases hc : attempt = maxRetries ∨ isR e = false
        · simp only [hc, if_true]; simp; omega
        · simp only [hc, if_false]
          have := ih (attempt + 1) (invocs + 1) (log ++ [attempt + 1]) (some e)
          omega
    · rw [if_neg h]; simp

/-! ## Claim C1 -/

/-- **C1.** For every retry policy with `maxAttempts ≥ 1` and every operation
failing on every invocation with a retryable error, the retry function
invokes the operation exactly `maxAttempts` times, calls `onRetry` exactly
`maxAttempts - 1` times with attempt numbers `1 … maxAttempts - 1`, and then
raises the final invocation's error; and no call ever exceeds `maxAttempts`
invocations.  Stated for both variants: `retry` of `delay.ts` (whose option
is `maxAttempts`) and `retry` of `retry.ts` (whose option `maxRetries`
corresponds to `maxAttempts - 1` additional retries after the first attempt). -/
theorem retry_allFailing_invokes_maxAttempts {E A : Type} (op : Nat → Except E A)
    (isR : E → Bool) (maxAttempts : Nat) (hmax : 1 ≤ maxAttempts)
    (hfail : ∀ n, ∃ e, op n = .error e ∧ isR e = true) :
    (∃ e, op (maxAttempts - 1) = .error e ∧
      DelayTs.retry op isR maxAttempts =
        (.error (some e), maxAttempts, List.range' 1 (maxAttempts - 1))) ∧
    (∃ e, op (maxAttempts - 1) = .error e ∧
      RetryTs.retry op isR (maxAttempts - 1) =
        (.error (some e), maxAttempts, List.range' 1 (maxAttempts - 1))) ∧
    (∀ op2 : Nat → Except E A,
      (DelayTs.retry op2 isR maxAttempts).2.1 ≤ maxAttempts ∧
      (RetryTs.retry op2 isR (maxAttempts - 1)).2.1 ≤ maxAttempts) := by
  refine ⟨?_, ?_, ?_⟩
  · obtain ⟨e, he, hres⟩ :=
      delay_retryAux_allFail op isR maxAttempts hfail (maxAttempts - 1)
        (maxAttempts + 1) 1 0 [] none (by omega) (by omega) (by omega)
    refine ⟨e, by simpa using he, ?_⟩
    rw [DelayTs.retry, hres]
    simp
    omega
  · obtain ⟨e, he, hres⟩ :=
      retryTs_retryAux_allFail op isR (maxAttempts - 1) hfail (maxAttempts - 1)
        (maxAttempts - 1 + 1) 0 0 [] none (by omega) (by omega)
    refine ⟨e, by simpa using he, ?_⟩
    rw [RetryTs.retry, hres]
    simp
    omega
  · intro op2
    constructor
    · have := delay_retryAux_invocs_le op2 isR maxAttempts (maxAttempts + 1) 1 0 [] none
      rw [DelayTs.retry]
      omega
    · have := retryTs_retryAux_invocs_le op2 isR (maxAttempts - 1)
        (maxAttempts - 1 + 1) 0 0 [] none
      rw [RetryTs.retry]
      omega

/-- Witness for C1 at a concrete input: `maxAttempts = 3` and the operation
that always fails with error `7`, always retryable. -/
theorem retry_allFailing_invokes_maxAttempts_witness :
    (1 ≤ 3) ∧
    ((∃ e, (fun _ : Nat => (Except.error 7 : Except Nat Nat)) (3 - 1) = .error e ∧
      DelayTs.retry (fun _ : Nat => (Except.error 7 : Except Nat Nat))
        (fun _ => true) 3 = (.error (some e), 3, List.range' 1 (3 - 1))) ∧
    (∃ e, (fun _ : Nat => (Except.error 7 : Except Nat Nat)) (3 - 1) = .error e ∧
      RetryTs.retry (fun _ : Nat => (Except.error 7 : Except Nat Nat))
        (fun _ => true) (3 - 1) = (.error (some e), 3, List.range' 1 (3 - 1))) ∧
    (∀ op2 : Nat → Except Nat Nat,
      (DelayTs.retry op2 (fun _ => true) 3).2.1 ≤ 3 ∧
      (RetryTs.retry op2 (fun _ => true) (3 - 1)).2.1 ≤ 3)) :=
  ⟨by decide,
    retry_allFailing_invokes_maxAttempts (fun _ => Except.error 7) (fun _ => true) 3
      (by decide) (fun n => ⟨7, rfl, rfl⟩)⟩

/-! ## Circuit breaker lemmas -/

/-- In the closed state a successful `execute` passes the value through,
invokes the operation, and leaves `stateData` entirely unchanged
(`onSuccess` acts only in half-open). -/
theorem execute_closed_ok {E A : Type} (cfg : RetryTs.CBConfig) (now : Int) (v : A)
    (s : RetryTs.CBData) (hs : s.state = .closed) :
    RetryTs.execute (E := E) cfg now (.ok v) s = (.ok v, s, true) := by
  simp [RetryTs.execute, RetryTs.getState, RetryTs.onSuccess, hs]

/-- While open and before `halfOpenTime` has elapsed, `execute` rejects with
the breaker's own error, does not invoke the operation, and leaves
`stateData` untouched. -/
theorem execute_open_rejects {E A : Type} (cfg : RetryTs.CBConfig) (now : Int)
    (op : Except E A) (s : RetryTs.CBData) (hs : s.state = .opened)
    (hrecent : now - s.lastFailure < cfg.halfOpenTime) :
    RetryTs.execute cfg now op s = (.error .circuitOpen, s, false) := by
  have h : ¬ cfg.halfOpenTime ≤ now - s.lastFailure := not_le.mpr hrecent
  simp [RetryTs.execute, RetryTs.getState, hs, h]

/-- A recently opened breaker is left exactly as it is by any sequence of
`execute` calls at the same instant. -/
theorem runSeq_open_stays {E A : Type} (cfg : RetryTs.CBConfig) (now : Int)
    (ops : List (Except E A)) (s : RetryTs.CBData) (hs : s.state = .opened)
    (hrecent : now - s.lastFailure < cfg.halfOpenTime) :
    RetryTs.runSeq cfg now ops s = s := by
  induction ops with
  | nil => rfl
  | cons op ops ih =>
    show RetryTs.runSeq cfg now ops (RetryTs.execute cfg now op s).2.1 = s
    rw [execute_open_rejects cfg now op s hs hrecent]
    exact ih

/-- From a closed state whose failure count is still below the threshold, any
sequence of outcomes containing enough failures to reach the threshold drives
the breaker to open (successes in closed state mutate nothing, so the
failures need not be consecutive); once open it stays open for the rest of
the sequence (`lastFailure` is stamped with the current instant). -/
theorem runSeq_closed_opens {E A : Type} (cfg : RetryTs.CBConfig) (now : Int)
    (hopen : 0 < cfg.halfOpenTime) :
    ∀ (ops : List (Except E A)) (s : RetryTs.CBData), s.state = .closed →
      s.failures < cfg.failureThreshold →
      cfg.failureThreshold ≤ s.failures + RetryTs.countErrors ops →
      (RetryTs.runSeq cfg now ops s).state = .opened := by
  intro ops
  induction ops with
  | nil =>
    intro s hs hlt hge
    exfalso
    simp [RetryTs.countErrors, Except.toBool] at hge
    omega
  | cons op ops ih =>
    intro s hs hlt hge
    cases op with
    | ok v =>
      show (RetryTs.runSeq cfg now ops
        (RetryTs.execute cfg now (Except.ok v : Except E A) s).2.1).state = .opened
      rw [execute_closed_ok cfg now v s hs]
      exact ih s hs hlt (by simpa [RetryTs.countErrors, Except.toBool] using hge)
    | error e =>
      show (RetryTs.runSeq cfg now ops
        (RetryTs.execute cfg now (Except.error e : Except E A) s).2.1).state = .opened
      have hstep : (RetryTs.execute cfg now (Except.error e : Except E A) s).2.1 =
          RetryTs.onFailure cfg now s := by
        simp [RetryTs.execute, RetryTs.getState, hs]
      rw [hstep]
      have hcount : cfg.failureThreshold ≤ s.failures + 1 + RetryTs.countErrors ops := by
        simp [RetryTs.countErrors, Except.toBool] at hge ⊢
        omega
      by_cases hthr : cfg.failureThreshold ≤ s.failures + 1
      · have hf : RetryTs.onFailure cfg now s =
            { state := .opened, failures := s.failures + 1, lastFailure := now,
              successes := s.successes } := by
          simp [RetryTs.onFailure, hs, hthr]
        rw [hf, runSeq_open_stays cfg now ops _ rfl (by simpa using hopen)]
      · have hf : RetryTs.onFailure cfg now s =
            { state := .closed, failures := s.failures + 1, lastFailure := now,
              successes := s.successes } := by
          simp [RetryTs.onFailure, hs, hthr]
        rw [hf]
        exact ih _ rfl (by simpa using lt_of_not_le hthr) (by simpa using hcount)

/-! ## Claim C2 -/

/-- **C2.** From a fresh closed breaker, `failureThreshold` consecutive
failures drive the state to open; and every `execute` on an open breaker
before `openDuration` has elapsed since the last failure raises
`CircuitOpenError` without invoking the wrapped operation (the invocation
flag is `false`) and leaves the whole `stateData` record — in particular the
failure and success counters — unmutated. -/
theorem circuitBreaker_opens_after_threshold_and_rejects {E A : Type}
    (cfg : RetryTs.CBConfig) (now : Int) (errs : List E) (s : RetryTs.CBData)
    (op : Except E A) (hlen : errs.length = cfg.failureThreshold)
    (hth : 1 ≤ cfg.failureThreshold) (hopen : 0 < cfg.halfOpenTime)
    (hs : s.state = .opened) (hrecent : now - s.lastFailure < cfg.halfOpenTime) :
    (RetryTs.runSeq cfg now (errs.map (Except.error (α := A))) RetryTs.initCB).state =
      .opened ∧
    RetryTs.execute cfg now op s = (.error .circuitOpen, s, false) := by
  constructor
  · apply runSeq_closed_opens cfg now hopen _ RetryTs.initCB rfl
    · simpa [RetryTs.initCB] using hth
    · have hc : RetryTs.countErrors (errs.map (Except.error (α := A))) = errs.length := by
        simp [RetryTs.countErrors, List.filter_map, Except.toBool, Function.comp]
      simp [RetryTs.initCB, hc, hlen]
  · exact execute_open_rejects cfg now op s hs hrecent

/-- Witness for C2: threshold 2 with two failures `[7, 8]` from a fresh
breaker, and an open breaker (`lastFailure = 0`, `now = 500 <` the
1000 ms `openDuration`) rejecting an operation that would succeed. -/
theorem circuitBreaker_opens_after_threshold_and_rejects_witness :
    (([7, 8] : List Nat).length = 2) ∧ (1 ≤ 2) ∧ ((0 : Int) < 1000) ∧
    ((⟨.opened, 2, 0, 0⟩ : RetryTs.CBData).state = .opened) ∧
    ((500 : Int) - (⟨.opened, 2, 0, 0⟩ : RetryTs.CBData).lastFailure < 1000) ∧
    ((RetryTs.runSeq ⟨2, 1000, 2⟩ 500
        (([7, 8] : List Nat).map (Except.error (α := Nat))) RetryTs.initCB).state =
          .opened ∧
      RetryTs.execute ⟨2, 1000, 2⟩ 500 (Except.ok 1 : Except Nat Nat)
          (⟨.opened, 2, 0, 0⟩ : RetryTs.CBData) =
        (.error .circuitOpen, ⟨.opened, 2, 0, 0⟩, false)) :=
  ⟨rfl, by decide, by decide, rfl, by decide,
    circuitBreaker_opens_after_threshold_and_rejects ⟨2, 1000, 2⟩ 500 [7, 8]
      ⟨.opened, 2, 0, 0⟩ (Except.ok 1) rfl (by decide) (by decide) rfl (by decide)⟩

/-! ## Claim C10 -/

/-- **C10.** A successful `execute` while the breaker is closed leaves the
whole `CircuitMemory` unchanged — in particular `failureCount` is not reset —
and consequently `failureThreshold` cumulative failures, even interleaved
with successes, drive a fresh breaker from closed to open. -/
theorem closed_success_frame_and_cumulative_failures_open {E A : Type}
    (cfg : RetryTs.CBConfig) (now : Int) (s : RetryTs.CBData) (v : A)
    (ops : List (Except E A)) (hs : s.state = .closed)
    (hth : 1 ≤ cfg.failureThreshold) (hopen : 0 < cfg.halfOpenTime)
    (hcount : cfg.failureThreshold ≤ RetryTs.countErrors ops) :
    RetryTs.execute cfg now (Except.ok v : Except E A) s = (.ok v, s, true) ∧
    (RetryTs.runSeq cfg now ops RetryTs.initCB).state = .opened := by
  refine ⟨execute_closed_ok cfg now v s hs, ?_⟩
  apply runSeq_closed_opens cfg now hopen ops RetryTs.initCB rfl
  · simpa [RetryTs.initCB] using hth
  · simpa [RetryTs.initCB] using hcount

/-- Witness for C10: threshold 2; the failure sequence
`error 7, ok 1, error 8` is interleaved with a success yet opens the breaker;
the success frame is checked on a closed state with a nonzero failure count. -/
theorem closed_success_frame_and_cumulative_failures_open_witness :
    ((⟨.closed, 1, 0, 0⟩ : RetryTs.CBData).state = .closed) ∧ (1 ≤ 2) ∧
    ((0 : Int) < 1000) ∧
    (2 ≤ RetryTs.countErrors [Except.error 7, Except.ok 1, Except.error 8]) ∧
    (RetryTs.execute ⟨2, 1000, 2⟩ 500 (Except.ok 5 : Except Nat Nat)
        (⟨.closed, 1, 0, 0⟩ : RetryTs.CBData) =
        (.ok 5, ⟨.closed, 1, 0, 0⟩, true) ∧
      (RetryTs.runSeq ⟨2, 1000, 2⟩ 500
        ([Except.error 7, Except.ok 1, Except.error 8] : List (Except Nat Nat))
        RetryTs.initCB).state = .opened) :=
  ⟨rfl, by decide, by decide, by decide,
    closed_success_frame_and_cumulative_failures_open ⟨2, 1000, 2⟩ 500
      ⟨.closed, 1, 0, 0⟩ 5 [Except.error 7, Except.ok 1, Except.error 8]
      rfl (by decide) (by decide) (by decide)⟩

/-! ## Claim C4 -/

/-- **C4 (counterexample).** The claim says the lazy Open→HalfOpen transition
"resets successCount to 0".  At the explicit input
`stateData = {state: open, failures: 2, lastFailure: 0, successes: 1}`,
`config.halfOpenTime = 1000`, `now = 1000`, `getState` does transition to
half-open but leaves `successes = 1 ≠ 0`: the source's `getState` only
rewrites the `state` field. -/
theorem getState_halfOpen_successes_not_reset_cex :
    (RetryTs.getState ⟨2, 1000, 2⟩ 1000 ⟨.opened, 2, 0, 1⟩).1 = .halfOpen ∧
    (RetryTs.getState ⟨2, 1000, 2⟩ 1000 ⟨.opened, 2, 0, 1⟩).2.successes = 1 ∧
    ¬ (RetryTs.getState ⟨2, 1000, 2⟩ 1000 ⟨.opened, 2, 0, 1⟩).2.successes = 0 := by
  decide

/-- **C4 (amended).** Whenever the breaker is open and is accessed through
`getState` (directly or from `execute`) with
`now - lastFailureTimestamp ≥ openDuration`, it transitions to half-open
lazily on that access; the transition rewrites only the `state` field —
`successCount` is *not* reset but retains its previous value (it is cleared
only by `reset()` when the breaker closes). -/
theorem getState_lazy_halfOpen_preserves_successes
    (cfg : RetryTs.CBConfig) (now : Int) (s : RetryTs.CBData)
    (hs : s.state = .opened) (helapsed : cfg.halfOpenTime ≤ now - s.lastFailure) :
    RetryTs.getState cfg now s = (.halfOpen, { s with state := .halfOpen }) ∧
    (RetryTs.getState cfg now s).2.successes = s.successes := by
  have h : RetryTs.getState cfg now s = (.halfOpen, { s with state := .halfOpen }) := by
    simp [RetryTs.getState, hs, helapsed]
  exact ⟨h, by rw [h]⟩

/-- Witness for C4 (amended) at the counterexample's concrete input. -/
theorem getState_lazy_halfOpen_preserves_successes_witness :
    ((⟨.opened, 2, 0, 1⟩ : RetryTs.CBData).state = .opened) ∧
    ((1000 : Int) ≤ 1000 - (⟨.opened, 2, 0, 1⟩ : RetryTs.CBData).lastFailure) ∧
    (RetryTs.getState ⟨2, 1000, 2⟩ 1000 ⟨.opened, 2, 0, 1⟩ =
        (.halfOpen, { (⟨.opened, 2, 0, 1⟩ : RetryTs.CBData) with state := .halfOpen }) ∧
      (RetryTs.getState ⟨2, 1000, 2⟩ 1000 ⟨.opened, 2, 0, 1⟩).2.successes =
        (⟨.opened, 2, 0, 1⟩ : RetryTs.CBData).successes) :=
  ⟨rfl, by decide,
    getState_lazy_halfOpen_preserves_successes ⟨2, 1000, 2⟩ 1000
      ⟨.opened, 2, 0, 1⟩ rfl (by decide)⟩

/-! ## Claim C3 -/

/-- **C3 (counterexample).** `calculateDelay` does *not* clamp the jittered
delay to `maxDelay`: with `initialDelay = 1000`, `maxDelay = 30000`,
`backoffMultiplier = 2`, `jitterFactor = 0.1`, `attempt = 10` and the random
draw `0.99` (a legal `Math.random()` value), the capped delay is `30000` and
the positive jitter pushes the result to `32940 > 30000`; only
`Math.max(0, …)` is applied after jitter, never `Math.min(…, maxDelay)`. -/
theorem calculateDelay_exceeds_maxDelay_cex :
    ((0 : ℚ) ≤ 99 / 100 ∧ (99 / 100 : ℚ) < 1) ∧
    RetryTs.calculateDelay 10 ⟨1000, 30000, 2, 1 / 10⟩ (99 / 100) = 32940 ∧
    ¬ ((RetryTs.calculateDelay 10 ⟨1000, 30000, 2, 1 / 10⟩ (99 / 100) : ℚ) ≤
        (⟨1000, 30000, 2, 1 / 10⟩ : RetryTs.RetryOptions).maxDelay) := by
  refine ⟨by norm_num, ?_, ?_⟩ <;> norm_num [RetryTs.calculateDelay, RetryTs.jsRound]

/-- **C3 (amended).** For every policy with non-negative `initialDelay`,
`maxDelay`, `backoffMultiplier` and `jitterFactor`, every `attempt ≥ 0` and
every random draw in `[0, 1)`, `calculateDelay` returns a non-negative
integer; the *pre-jitter* delay is capped at `maxDelay`, but the jittered
delay is clamped only below at `0` (not above), so the result may exceed
`maxDelay` by up to `cappedDelay * jitterFactor` and is bounded by
`round(maxDelay * (1 + jitterFactor))`. -/
theorem calculateDelay_nonneg_bounded_with_jitter (attempt : Nat)
    (config : RetryTs.RetryOptions) (rand : ℚ)
    (hinit : 0 ≤ config.initialDelay) (hmul : 0 ≤ config.backoffMultiplier)
    (hmaxd : 0 ≤ config.maxDelay) (hjit : 0 ≤ config.jitter)
    (hr0 : 0 ≤ rand) (hr1 : rand < 1) :
    0 ≤ RetryTs.calculateDelay attempt config rand ∧
    RetryTs.calculateDelay attempt config rand ≤
      RetryTs.jsRound (config.maxDelay * (1 + config.jitter)) := by
  constructor
  · exact le_max_left 0 _
  · have hD0 : 0 ≤ min (config.initialDelay * config.backoffMultiplier ^ attempt)
        config.maxDelay := le_min (by positivity) hmaxd
    have hDle : min (config.initialDelay * config.backoffMultiplier ^ attempt)
        config.maxDelay ≤ config.maxDelay := min_le_right _ _
    set D := min (config.initialDelay * config.backoffMultiplier ^ attempt)
      config.maxDelay with hD
    have hDj : 0 ≤ D * config.jitter := mul_nonneg hD0 hjit
    have hjam : (rand - 1 / 2) * 2 * (D * config.jitter) ≤ D * config.jitter := by
      have h2 : (rand - 1 / 2) * 2 ≤ 1 := by linarith
      calc (rand - 1 / 2) * 2 * (D * config.jitter) ≤ 1 * (D * config.jitter) :=
            mul_le_mul_of_nonneg_right h2 hDj
        _ = D * config.jitter := one_mul _
    have hsum : D + (rand - 1 / 2) * 2 * (D * config.jitter) ≤
        config.maxDelay * (1 + config.jitter) := by nlinarith
    have hfl : RetryTs.jsRound (D + (rand - 1 / 2) * 2 * (D * config.jitter)) ≤
        RetryTs.jsRound (config.maxDelay * (1 + config.jitter)) :=
      Int.floor_mono (by linarith)
    have h0r : (0 : ℤ) ≤ RetryTs.jsRound (config.maxDelay * (1 + config.jitter)) := by
      apply Int.le_floor.mpr
      push_cast
      nlinarith
    simp only [RetryTs.calculateDelay, ← hD]
    exact max_le h0r hfl

/-- Witness for C3 (amended): the default policy, `attempt = 0`,
random draw `1/2` (the jitter-free midpoint). -/
theorem calculateDelay_nonneg_bounded_with_jitter_witness :
    ((0 : ℚ) ≤ (⟨1000, 30000, 2, 1 / 10⟩ : RetryTs.RetryOptions).initialDelay) ∧
    ((0 : ℚ) ≤ (⟨1000, 30000, 2, 1 / 10⟩ : RetryTs.RetryOptions).backoffMultiplier) ∧
    ((0 : ℚ) ≤ (⟨1000, 30000, 2, 1 / 10⟩ : RetryTs.RetryOptions).maxDelay) ∧
    ((0 : ℚ) ≤ (⟨1000, 30000, 2, 1 / 10⟩ : RetryTs.RetryOptions).jitter) ∧
    ((0 : ℚ) ≤ 1 / 2) ∧ ((1 / 2 : ℚ) < 1) ∧
    (0 ≤ RetryTs.calculateDelay 0 ⟨1000, 30000, 2, 1 / 10⟩ (1 / 2) ∧
      RetryTs.calculateDelay 0 ⟨1000, 30000, 2, 1 / 10⟩ (1 / 2) ≤
        RetryTs.jsRound ((⟨1000, 30000, 2, 1 / 10⟩ : RetryTs.RetryOptions).maxDelay *
          (1 + (⟨1000, 30000, 2, 1 / 10⟩ : RetryTs.RetryOptions).jitter))) :=
  ⟨by norm_num, by norm_num, by norm_num, by norm_num, by norm_num, by norm_num,
    calculateDelay_nonneg_bounded_with_jitter 0 ⟨1000, 30000, 2, 1 / 10⟩ (1 / 2)
      (by norm_num) (by norm_num) (by norm_num) (by norm_num) (by norm_num) (by norm_num)⟩

/-! ## Claim C6 -/

/-- **C6 (counterexample).** The claim says a pool call with `limit < 1`
fails synchronously with a `ConfigurationError` before any task is invoked.
The source performs no validation at all: at the explicit input
`items = [true]`, `concurrency = 0`, `mapWithConcurrency` resolves normally —
zero invocations, the single result slot left unfilled, and no error of any
kind (the embedding's return type has no error channel because the source
function cannot throw on its own). -/
theorem mapWithConcurrency_zero_limit_resolves_cex :
    DelayTs.mapWithConcurrency [true] 0 (fun _ _ => (42 : Nat)) = ([none], 0) := by
  norm_num [DelayTs.mapWithConcurrency]

/-- **C6 (amended).** For every task list, calling `mapWithConcurrency` with
`limit < 1` does not raise anything: it resolves without invoking any task
(invocation count `0`), leaving every result slot unfilled.  (A
`ConfigurationError` guard does not exist in the source.) -/
theorem mapWithConcurrency_lowLimit_no_invocation {α β : Type} (items : List α)
    (c : Int) (f : α → Nat → β) (hc : c < 1) :
    DelayTs.mapWithConcurrency items c f = (items.map fun _ => none, 0) := by
  have h : ¬ (1 ≤ min c (items.length : Int)) := by
    have := min_le_left c ((items.length : Int))
    omega
  simp [DelayTs.mapWithConcurrency, h]

/-- Witness for C6 (amended): two items, `concurrency = -3`. -/
theorem mapWithConcurrency_lowLimit_no_invocation_witness :
    ((-3 : Int) < 1) ∧
    DelayTs.mapWithConcurrency [10, 20] (-3) (fun a i => a + i) =
      (([10, 20] : List Nat).map fun _ => none, 0) :=
  ⟨by decide,
    mapWithConcurrency_lowLimit_no_invocation [10, 20] (-3) (fun a i => a + i)
      (by decide)⟩

/-! ## Claim C7 -/

/-- **C7.** The claim says each `PooledResult.attempts` equals the actual
number of operation invocations (at least 1).  The source initialises
`attempts: 0` and never updates it, contradicting its own interface doc
("Number of attempts made"): for a task succeeding on its first invocation
the pool reports `attempts = 0` while the underlying `retry` call performed
exactly `1` invocation. -/
theorem retryPool_attempts_field_stuck_at_zero :
    RetryTs.retryPool [fun _ => (Except.ok 42 : Except Nat Nat)] (fun _ => true) 3 =
      [{ result := some 42, error := none, attempts := 0, success := true }] ∧
    (RetryTs.retry (fun _ => (Except.ok 42 : Except Nat Nat)) (fun _ => true) 3).2.1 = 1 :=
  ⟨rfl, rfl⟩

/-! ## Claim C8 -/

/-- **C8.** `retryPool` never raises for an individual task's failure: its
result is a total, full-length array, index-aligned with the input; slot `i`
is a function of task `i` alone (so one task's failure cannot perturb any
sibling slot); and a task whose `retry` call ends in a thrown error `t`
yields `{success: false, error: t, result: none}` in its own slot. -/
theorem retryPool_slot_isolation {E A : Type} (tasks : List (Nat → Except E A))
    (isR : E → Bool) (maxRetries : Nat) :
    (RetryTs.retryPool tasks isR maxRetries).length = tasks.length ∧
    (∀ i : Nat, (RetryTs.retryPool tasks isR maxRetries)[i]? =
      (tasks[i]?).map fun t => RetryTs.runPooledTask t isR maxRetries) ∧
    (∀ (task : Nat → Except E A) (t : Option E) (n : Nat) (l : List Nat),
      RetryTs.retry task isR maxRetries = (.error t, n, l) →
      RetryTs.runPooledTask task isR maxRetries =
        { result := none, error := some t, attempts := 0, success := false }) := by
  refine ⟨by simp [RetryTs.retryPool], ?_, ?_⟩
  · intro i
    simp [RetryTs.retryPool]
  · intro task t n l h
    unfold RetryTs.runPooledTask
    rw [h]

/-- Witness for C8 at a concrete failing task (`error 9`, retryable,
`maxRetries = 1`, so `retry` throws `some 9` after 2 invocations). -/
theorem retryPool_slot_isolation_witness :
    (RetryTs.retry (fun _ => (Except.error 9 : Except Nat Nat)) (fun _ => true) 1 =
      (.error (some 9), 2, [1])) ∧
    RetryTs.runPooledTask (fun _ => (Except.error 9 : Except Nat Nat)) (fun _ => true) 1 =
      { result := none, error := some (some 9), attempts := 0, success := false } :=
  ⟨rfl,
    (retryPool_slot_isolation [fun _ => Except.error 9] (fun _ => true) 1).2.2
      (fun _ => Except.error 9) (some 9) 2 [1] rfl⟩

/-! ## Claim C9 -/

/-- **C9.** An operation whose first failure is classified non-retryable is
invoked exactly once regardless of the attempt limit, `onRetry` is never
called (the log is empty), and the very error value produced by the operation
is rethrown unmodified.  Stated for both retry variants; the `retry.ts`
conclusion holds for every `maxRetries` whatsoever. -/
theorem retry_nonRetryable_single_invocation {E A : Type} (op : Nat → Except E A)
    (isR : E → Bool) (e : E) (maxAttempts : Nat) (hop : op 0 = .error e)
    (hnr : isR e = false) (hmax : 1 ≤ maxAttempts) :
    DelayTs.retry op isR maxAttempts = (.error (some e), 1, []) ∧
    ∀ maxRetries : Nat, RetryTs.retry op isR maxRetries = (.error (some e), 1, []) := by
  constructor
  · obtain ⟨m, rfl⟩ : ∃ m, maxAttempts = m + 1 := ⟨maxAttempts - 1, by omega⟩
    have h1 : 1 ≤ m + 1 := by omega
    simp [DelayTs.retry, DelayTs.retryAux, hop, hnr, h1]
  · intro maxRetries
    simp [RetryTs.retry, RetryTs.retryAux, hop, hnr]

/-- Witness for C9: error `5` declared non-retryable, `maxAttempts = 4`. -/
theorem retry_nonRetryable_single_invocation_witness :
    ((fun _ : Nat => (Except.error 5 : Except Nat Nat)) 0 = .error 5) ∧
    ((fun _ : Nat => false) 5 = false) ∧ (1 ≤ 4) ∧
    (DelayTs.retry (fun _ : Nat => (Except.error 5 : Except Nat Nat))
        (fun _ => false) 4 = (.error (some 5), 1, []) ∧
      ∀ maxRetries : Nat,
        RetryTs.retry (fun _ : Nat => (Except.error 5 : Except Nat Nat))
          (fun _ => false) maxRetries = (.error (some 5), 1, [])) :=
  ⟨rfl, rfl, by decide,
    retry_nonRetryable_single_invocation (fun _ => Except.error 5) (fun _ => false)
      5 4 rfl rfl (by decide)⟩

end Stacksusu
